/-
Verification of the SCRAM client core (mongoc-scram.c) against its
natural-language specification.

Modelling conventions:
* Byte strings (C `char *` / `uint8_t *` buffers) are `List Nat`, one entry
  per byte, values < 256.  NUL-terminated C strings are modelled as the list
  of bytes before the terminator (hence no interior zero byte).
* Machine integers are `Nat`/`Int`; 32-bit overflow is modelled with an
  explicit `% 2^32` where the C source performs uint32 arithmetic.
* The crypto provider (`mongoc_crypto_hmac` / `mongoc_crypto_hash`) and the
  password-preparation hook are consumed capabilities of the module and are
  passed as function parameters, exactly as the spec's §4.2 describes them.
* Fallible C functions returning false / NULL / -1 are `Option`/`Except`.
-/
import Mathlib

namespace Scram

/-- 2^32, the modulus of the C `uint32_t` arithmetic in `_mongoc_scram_buf_write`. -/
def u32Mod : Nat := 4294967296

/-- Embeds `_mongoc_scram_buf_write` (mongoc-scram.c:228-248).  The C source
checks `*outbuflen + src_len >= outbufmax` in uint32 arithmetic and, on
success, appends `src` and advances the length.  `buf` is the list of bytes
written so far (its length is `*outbuflen`); `none` is the `false` return. -/
def bufWrite (src : List Nat) (outbufmax : Nat) (buf : List Nat) : Option (List Nat) :=
  if outbufmax ≤ (buf.length + src.length) % u32Mod then none
  else some (buf ++ src)

/-- C10: the buffer writer succeeds iff current length + source length is
strictly below the maximum; an exact fill is overflow; after success the
stored length stays strictly below the capacity. -/
theorem bufWrite_spec (src : List Nat) (outbufmax : Nat) (buf : List Nat)
    (h : buf.length + src.length < u32Mod) :
    ((bufWrite src outbufmax buf).isSome ↔ buf.length + src.length < outbufmax) ∧
    (buf.length + src.length = outbufmax → bufWrite src outbufmax buf = none) ∧
    (∀ out, bufWrite src outbufmax buf = some out → out.length < outbufmax) := by
  unfold bufWrite
  rw [Nat.mod_eq_of_lt h]
  refine ⟨?_, ?_, ?_⟩
  · constructor
    · intro hs
      by_contra hlt
      simp [Nat.le_of_not_lt hlt] at hs
    · intro hlt
      simp [Nat.not_le_of_lt hlt]
  · intro he
    simp [he]
  · intro out hout
    by_cases hle : outbufmax ≤ buf.length + src.length
    · simp [hle] at hout
    · simp [hle] at hout
      have := Nat.lt_of_not_le hle
      simpa [← hout] using this

/-- Witness for C10 at a concrete call: writing 3 bytes into a 5-byte buffer
holding 1 byte succeeds, and exactly filling the buffer is rejected. -/
theorem bufWrite_spec_witness :
    (1 : Nat) + 3 < u32Mod ∧
    (((bufWrite [7, 8, 9] 5 [1]).isSome ↔ (1 : Nat) + 3 < 5) ∧
     ((1 : Nat) + 3 = 5 → bufWrite [7, 8, 9] 5 [1] = none) ∧
     (∀ out, bufWrite [7, 8, 9] 5 [1] = some out → out.length < 5)) :=
  ⟨by decide, bufWrite_spec [7, 8, 9] 5 [1] (by decide)⟩

/-- Inversion: a successful `bufWrite` appends the source to the buffer. -/
theorem bufWrite_eq_some {src : List Nat} {outbufmax : Nat} {buf out : List Nat}
    (h : bufWrite src outbufmax buf = some out) : out = buf ++ src := by
  unfold bufWrite at h
  split at h
  · exact absurd h (by simp)
  · simpa using h.symm

/-! ## Step 1: client-first message (`_mongoc_scram_start`, mongoc-scram.c:256-397) -/

/-- One iteration of the username-escaping loop (mongoc-scram.c:311-339):
`,` (44) becomes `"=2C"`, `=` (61) becomes `"=3D"`, any other byte is written
unchanged.  Each arm of the C switch performs one `_mongoc_scram_buf_write`
of exactly these bytes. -/
def escapeUserByte (b : Nat) : List Nat :=
  if b = 44 then [61, 50, 67]
  else if b = 61 then [61, 51, 68]
  else [b]

/-- The username loop of `_mongoc_scram_start`: writes the escape of each
user byte in order, failing as soon as a `bufWrite` overflows. -/
def scramStartUserLoop (outbufmax : Nat) : List Nat → List Nat → Option (List Nat)
  | [], buf => some buf
  | b :: rest, buf =>
    match bufWrite (escapeUserByte b) outbufmax buf with
    | none => none
    | some buf2 => scramStartUserLoop outbufmax rest buf2

/-- Embeds `_mongoc_scram_start` from the point where the nonce has been
drawn and base64-encoded (mongoc-scram.c:307-371): writes `"n,,n="`, the
escaped user, `",r="`, and the encoded nonce into `outbuf`, then copies
`outbuf` from offset 3 onward plus a trailing `","` into the auth message
(whose capacity is also `outbufmax`, line 282).  Returns
`(outbuf, auth_message)`; `none` is any of the BUFFER/BUFFER_AUTH failures.
The randomness and base64 steps (lines 285-305) are external capabilities;
their successful results enter through the `encodedNonce` parameter. -/
def scramStart (user encodedNonce : List Nat) (outbufmax : Nat) :
    Option (List Nat × List Nat) := do
  let b1 ← bufWrite [110, 44, 44, 110, 61] outbufmax []
  let b2 ← scramStartUserLoop outbufmax user b1
  let b3 ← bufWrite [44, 114, 61] outbufmax b2
  let b4 ← bufWrite encodedNonce outbufmax b3
  let a1 ← bufWrite (b4.drop 3) outbufmax []
  let a2 ← bufWrite [44] outbufmax a1
  return (b4, a2)

/-- Successful runs of the username loop append exactly the concatenation of
the per-byte escapes. -/
theorem scramStartUserLoop_eq (outbufmax : Nat) :
    ∀ (user buf out : List Nat),
      scramStartUserLoop outbufmax user buf = some out →
      out = buf ++ user.flatMap escapeUserByte := by
  intro user
  induction user with
  | nil =>
    intro buf out h
    simp [scramStartUserLoop] at h
    simp [h.symm]
  | cons b rest ih =>
    intro buf out h
    unfold scramStartUserLoop at h
    cases hw : bufWrite (escapeUserByte b) outbufmax buf with
    | none => rw [hw] at h; simp at h
    | some buf2 =>
      rw [hw] at h
      simp only at h
      have h2 := ih buf2 out h
      rw [h2, bufWrite_eq_some hw]
      simp

/-- C3: whenever step 1 succeeds, `outbuf` holds exactly
`"n,,n="` + escaped-user + `",r="` + encoded-nonce, where the escaping maps
`,` to `"=2C"`, `=` to `"=3D"` and passes every other byte through. -/
theorem scramStart_outbuf (user encodedNonce : List Nat) (outbufmax : Nat)
    (outbuf auth : List Nat)
    (huser : user ≠ [])
    (h : scramStart user encodedNonce outbufmax = some (outbuf, auth)) :
    outbuf = [110, 44, 44, 110, 61] ++ user.flatMap escapeUserByte ++
             [44, 114, 61] ++ encodedNonce := by
  clear huser
  unfold scramStart at h
  cases h1 : bufWrite [110, 44, 44, 110, 61] outbufmax [] with
  | none => rw [h1] at h; simp at h
  | some b1 =>
    rw [h1] at h
    simp only [Option.bind_eq_bind, Option.some_bind] at h
    cases h2 : scramStartUserLoop outbufmax user b1 with
    | none => rw [h2] at h; simp at h
    | some b2 =>
      rw [h2] at h
      simp only [Option.bind_eq_bind, Option.some_bind] at h
      cases h3 : bufWrite [44, 114, 61] outbufmax b2 with
      | none => rw [h3] at h; simp at h
      | some b3 =>
        rw [h3] at h
        simp only [Option.bind_eq_bind, Option.some_bind] at h
        cases h4 : bufWrite encodedNonce outbufmax b3 with
        | none => rw [h4] at h; simp at h
        | some b4 =>
          rw [h4] at h
          simp only [Option.bind_eq_bind, Option.some_bind] at h
          cases h5 : bufWrite (b4.drop 3) outbufmax [] with
          | none => rw [h5] at h; simp at h
          | some a1 =>
            rw [h5] at h
            simp only [Option.bind_eq_bind, Option.some_bind] at h
            cases h6 : bufWrite [44] outbufmax a1 with
            | none => rw [h6] at h; simp at h
            | some a2 =>
              rw [h6] at h
              simp only [Option.bind_eq_bind, Option.some_bind,
                Option.pure_def, Option.some.injEq, Prod.mk.injEq] at h
              obtain ⟨hout, -⟩ := h
              subst hout
              have e1 : b1 = [] ++ [110, 44, 44, 110, 61] := bufWrite_eq_some h1
              have e2 := scramStartUserLoop_eq outbufmax user b1 b2 h2
              have e3 : b3 = b2 ++ [44, 114, 61] := bufWrite_eq_some h3
              have e4 : b4 = b3 ++ encodedNonce := bufWrite_eq_some h4
              subst e1 e2 e3 e4
              simp

/-- Witness for C3 on the spec's own scenario 7: user `a,b=c` with nonce
`"NONce"` produces `n,,n=a=2Cb=3Dc,r=NONce`. -/
theorem scramStart_outbuf_witness :
    ([97, 44, 98, 61, 99] : List Nat) ≠ [] ∧
    scramStart [97, 44, 98, 61, 99] [78, 79, 78, 99, 101] 64 =
      some ([110, 44, 44, 110, 61, 97, 61, 50, 67, 98, 61, 51, 68, 99,
             44, 114, 61, 78, 79, 78, 99, 101],
            [110, 61, 97, 61, 50, 67, 98, 61, 51, 68, 99,
             44, 114, 61, 78, 79, 78, 99, 101, 44]) ∧
    ([110, 44, 44, 110, 61, 97, 61, 50, 67, 98, 61, 51, 68, 99,
      44, 114, 61, 78, 79, 78, 99, 101] : List Nat) =
      [110, 44, 44, 110, 61] ++
        ([97, 44, 98, 61, 99] : List Nat).flatMap escapeUserByte ++
        [44, 114, 61] ++ [78, 79, 78, 99, 101] :=
  ⟨by decide, by decide,
   scramStart_outbuf [97, 44, 98, 61, 99] [78, 79, 78, 99, 101] 64
     [110, 44, 44, 110, 61, 97, 61, 50, 67, 98, 61, 51, 68, 99,
      44, 114, 61, 78, 79, 78, 99, 101]
     [110, 61, 97, 61, 50, 67, 98, 61, 51, 68, 99,
      44, 114, 61, 78, 79, 78, 99, 101, 44]
     (by decide) (by decide)⟩

/-! ## Key derivation: `_mongoc_scram_salt_password` (mongoc-scram.c:401-446)

The crypto provider is a consumed capability (spec §4.2): `hmac key data`
returns the digest of `data` under `key`, of length `hash_size`. -/

/-- Byte-wise XOR of two equal-length buffers (the `output[k] ^= ...` loop). -/
def xorBytes (a b : List Nat) : List Nat := List.zipWith Nat.xor a b

/-- The `for (i = 2; i <= iterations; i++)` loop of
`_mongoc_scram_salt_password` (mongoc-scram.c:432-445), run `n` times:
`intermediate` holds U_{i-1}, `output` the accumulated XOR. -/
def saltLoop (hmac : List Nat → List Nat → List Nat) (password : List Nat) :
    Nat → List Nat → List Nat → List Nat
  | 0, _, output => output
  | n + 1, intermediate, output =>
    let next := hmac password intermediate
    saltLoop hmac password n next (xorBytes output next)

/-- Embeds `_mongoc_scram_salt_password`: `start_key` is the salt followed by
the bytes `0x00 0x00 0x00 0x01` (lines 414-419; the HMAC reads `hash_size`
bytes of it, which is exactly `salt ++ [0,0,0,1]` when the salt has
`hash_size - 4` bytes, the length step 2 enforces), `U1` is written to the
output and the loop XORs in the later rounds. -/
def saltPassword (hmac : List Nat → List Nat → List Nat)
    (password salt : List Nat) (iterations : Nat) : List Nat :=
  let u1 := hmac password (salt ++ [0, 0, 0, 1])
  saltLoop hmac password (iterations - 1) u1 u1

/-- `k`-fold application of `hmac password` (helper for relating the loop to
the specification's U-sequence). -/
def hmacIter (hmac : List Nat → List Nat → List Nat) (password : List Nat) :
    Nat → List Nat → List Nat
  | 0, u => u
  | k + 1, u => hmacIter hmac password k (hmac password u)

/-- The specification's U-sequence: `U 1 = HMAC(password, salt || 00 00 00 01)`
and `U (i+1) = HMAC(password, U i)`.  (The index-0 value is the HMAC input
block, so that the recurrence uniformly reads `U (i+1) = hmac password (U i)`.)
This definition follows the spec's words (§4.3), for comparison with
`saltPassword`, which follows the source. -/
def scramU (hmac : List Nat → List Nat → List Nat) (password salt : List Nat) :
    Nat → List Nat
  | 0 => salt ++ [0, 0, 0, 1]
  | i + 1 => hmac password (scramU hmac password salt i)

/-- The specification's salted password: `U1 XOR U2 XOR ... XOR Uc`
(spec §4.3), written as a left fold of `xorBytes` starting at `U1`. -/
def hiSpecXor (hmac : List Nat → List Nat → List Nat)
    (password salt : List Nat) (c : Nat) : List Nat :=
  ((List.range (c - 1)).map (fun j => scramU hmac password salt (j + 2))).foldl
    xorBytes (scramU hmac password salt 1)

theorem hmacIter_succ_out (hmac : List Nat → List Nat → List Nat)
    (password : List Nat) (k : Nat) :
    ∀ u, hmacIter hmac password (k + 1) u =
      hmac password (hmacIter hmac password k u) := by
  induction k with
  | zero => intro u; rfl
  | succ k ih =>
    intro u
    show hmacIter hmac password (k + 1) (hmac password u) = _
    rw [ih (hmac password u)]
    rfl

theorem scramU_eq_hmacIter (hmac : List Nat → List Nat → List Nat)
    (password salt : List Nat) (i : Nat) :
    scramU hmac password salt i =
      hmacIter hmac password i (salt ++ [0, 0, 0, 1]) := by
  induction i with
  | zero => rfl
  | succ i ih =>
    rw [hmacIter_succ_out]
    show hmac password (scramU hmac password salt i) = _
    rw [ih]

theorem saltLoop_eq (hmac : List Nat → List Nat → List Nat)
    (password : List Nat) :
    ∀ (n : Nat) (u acc : List Nat),
      saltLoop hmac password n u acc =
        ((List.range n).map (fun j => hmacIter hmac password (j + 1) u)).foldl
          xorBytes acc := by
  intro n
  induction n with
  | zero => intro u acc; rfl
  | succ n ih =>
    intro u acc
    have hstep : saltLoop hmac password (n + 1) u acc =
        saltLoop hmac password n (hmac password u) (xorBytes acc (hmac password u)) := rfl
    rw [hstep, ih (hmac password u) (xorBytes acc (hmac password u)),
      List.range_succ_eq_map, List.map_cons, List.foldl_cons, List.map_map]
    rfl

/-- C4: for every password, every salt of length `hash_size - 4` and every
iteration count `c ≥ 1`, the salted password computed by
`_mongoc_scram_salt_password` equals `U1 XOR U2 XOR ... XOR Uc` with
`U1 = HMAC(password, salt || 00 00 00 01)` and `Ui = HMAC(password, U_{i-1})`. -/
theorem saltPassword_eq_hiSpecXor (hmac : List Nat → List Nat → List Nat)
    (hashSize : Nat) (password salt : List Nat) (c : Nat)
    (hdig : ∀ k d, (hmac k d).length = hashSize)
    (hsalt : salt.length = hashSize - 4) (hc : 1 ≤ c) :
    saltPassword hmac password salt c = hiSpecXor hmac password salt c := by
  clear hdig hsalt hc
  unfold saltPassword hiSpecXor
  rw [saltLoop_eq]
  congr 1
  apply List.map_congr_left
  intro j _
  rw [scramU_eq_hmacIter]
  rfl

/-- Witness for C4 at a concrete provider: digests of length 4, empty salt
(4 - 4 = 0), three iterations. -/
theorem saltPassword_eq_hiSpecXor_witness :
    (∀ k d, ((fun (k d : List Nat) => [k.length % 256, d.length % 256, 5, 9]) k d).length = 4) ∧
    ([] : List Nat).length = 4 - 4 ∧ 1 ≤ 3 ∧
    saltPassword (fun (k d : List Nat) => [k.length % 256, d.length % 256, 5, 9]) [7] [] 3 =
      hiSpecXor (fun (k d : List Nat) => [k.length % 256, d.length % 256, 5, 9]) [7] [] 3 :=
  ⟨fun k d => rfl, by decide, by decide,
   saltPassword_eq_hiSpecXor (fun (k d : List Nat) => [k.length % 256, d.length % 256, 5, 9])
     4 [7] [] 3 (fun k d => rfl) (by decide) (by decide)⟩

/-! ## Password preparation without ICU (`_mongoc_sasl_prep_required`,
`_mongoc_sasl_prep`, mongoc-scram.c:1014-1029 and 1251-1268) -/

/-- Embeds `_mongoc_sasl_prep_required`: scans the NUL-terminated string and
returns true on the first byte `c` with `c < 32 || c >= 127`. -/
def saslPrepRequired (s : List Nat) : Bool :=
  s.any (fun c => decide (c < 32) || decide (127 ≤ c))

/-- Embeds the `#else` (no-ICU) branch of `_mongoc_sasl_prep`
(mongoc-scram.c:1258-1266): protocol error when `saslPrepRequired`, else a
copy of the input (`bson_strdup`). -/
def saslPrepNoICU (s : List Nat) : Except String (List Nat) :=
  if saslPrepRequired s then
    .error "SCRAM Failure: ICU required to SASLPrep password"
  else .ok s

/-- C7: without ICU, `_mongoc_sasl_prep` fails with the
"ICU required to SASLPrep password" protocol error iff the input has a byte
in [0x00,0x1F] or [0x7F,0xFF], and otherwise returns the input unchanged.
The input is a C string, so its bytes are nonzero and below 256. -/
theorem saslPrepNoICU_spec (s : List Nat) (hbyte : ∀ b ∈ s, 0 < b ∧ b < 256) :
    (saslPrepNoICU s = .error "SCRAM Failure: ICU required to SASLPrep password" ↔
       ∃ b ∈ s, b ≤ 31 ∨ (127 ≤ b ∧ b ≤ 255)) ∧
    ((¬ ∃ b ∈ s, b ≤ 31 ∨ (127 ≤ b ∧ b ≤ 255)) → saslPrepNoICU s = .ok s) := by
  have hreq : saslPrepRequired s = true ↔ ∃ b ∈ s, b ≤ 31 ∨ (127 ≤ b ∧ b ≤ 255) := by
    unfold saslPrepRequired
    rw [List.any_eq_true]
    constructor
    · rintro ⟨b, hb, hcond⟩
      refine ⟨b, hb, ?_⟩
      have h256 := (hbyte b hb).2
      simp only [Bool.or_eq_true, decide_eq_true_eq] at hcond
      omega
    · rintro ⟨b, hb, hcond⟩
      refine ⟨b, hb, ?_⟩
      simp only [Bool.or_eq_true, decide_eq_true_eq]
      omega
  constructor
  · rw [← hreq]
    unfold saslPrepNoICU
    constructor
    · intro h
      by_contra hr
      simp [hr] at h
    · intro hr
      simp [hr]
  · intro hnone
    rw [← hreq] at hnone
    unfold saslPrepNoICU
    simp [Bool.not_eq_true] at hnone
    simp [hnone]

/-- Witness for C7: the password "pen~" (printable ASCII) passes through,
while a password containing 0x7F would be rejected; instantiated at
`[112, 101, 110, 126]`. -/
theorem saslPrepNoICU_spec_witness :
    (∀ b ∈ ([112, 101, 110, 126] : List Nat), 0 < b ∧ b < 256) ∧
    ((saslPrepNoICU [112, 101, 110, 126] =
        .error "SCRAM Failure: ICU required to SASLPrep password" ↔
       ∃ b ∈ ([112, 101, 110, 126] : List Nat), b ≤ 31 ∨ (127 ≤ b ∧ b ≤ 255)) ∧
     ((¬ ∃ b ∈ ([112, 101, 110, 126] : List Nat), b ≤ 31 ∨ (127 ≤ b ∧ b ≤ 255)) →
       saslPrepNoICU [112, 101, 110, 126] = .ok [112, 101, 110, 126])) :=
  ⟨by decide, saslPrepNoICU_spec [112, 101, 110, 126] (by decide)⟩

/-! ## UTF-8 scanner (`_mongoc_utf8_char_length`, `_mongoc_utf8_is_valid`,
`_mongoc_utf8_string_length`, mongoc-scram.c:1270-1362)

Bytes are modelled unsigned (values 0-255).  The C source compares `char`
values, which are signed on the reference platforms, but every range used by
`_mongoc_char_between_chars` lies entirely within [0x00,0x7F] or entirely
within [0x80,0xFF], so the signed comparisons coincide with the unsigned
ones byte-for-byte. -/

/-- Embeds `_mongoc_utf8_char_length`: classify the leading byte by
`0xxxxxxx` / `110xxxxx` / `1110xxxx` / `11110xxx`, defaulting to 1. -/
def utf8CharLength (c : Nat) : Nat :=
  if c &&& 0x80 = 0 then 1
  else if c &&& 0xe0 = 0xc0 then 2
  else if c &&& 0xf0 = 0xe0 then 3
  else if c &&& 0xf8 = 0xf0 then 4
  else 1

theorem utf8CharLength_pos (c : Nat) : 1 ≤ utf8CharLength c := by
  unfold utf8CharLength
  split
  · omega
  · split
    · omega
    · split
      · omega
      · split <;> omega

/-- Embeds `_mongoc_char_between_chars`. -/
def charBetween (c lower upper : Nat) : Bool :=
  decide (lower ≤ c) && decide (c ≤ upper)

/-- Embeds `_mongoc_utf8_is_valid` on the byte list starting at the C
pointer `c`.  A read past the end of the list models the C read of the NUL
terminator and yields 0 (out of every continuation range, like NUL). -/
def utf8IsValid (l : List Nat) (length : Nat) : Bool :=
  match length with
  | 1 => charBetween (l.getD 0 0) 0x00 0x7F
  | 2 => charBetween (l.getD 0 0) 0xC2 0xDF && charBetween (l.getD 1 0) 0x80 0xBF
  | 3 =>
    (charBetween (l.getD 0 0) 0xE0 0xE0 && charBetween (l.getD 1 0) 0xA0 0xBF &&
       charBetween (l.getD 2 0) 0x80 0xBF) ||
    (charBetween (l.getD 0 0) 0xE1 0xEC && charBetween (l.getD 1 0) 0x80 0xBF &&
       charBetween (l.getD 2 0) 0x80 0xBF) ||
    (charBetween (l.getD 0 0) 0xED 0xED && charBetween (l.getD 1 0) 0x80 0x9F &&
       charBetween (l.getD 2 0) 0x80 0xBF) ||
    (charBetween (l.getD 0 0) 0xEE 0xEF && charBetween (l.getD 1 0) 0x80 0xBF &&
       charBetween (l.getD 2 0) 0x80 0xBF)
  | 4 =>
    (charBetween (l.getD 0 0) 0xF0 0xF0 && charBetween (l.getD 1 0) 0x90 0xBF &&
       charBetween (l.getD 2 0) 0x80 0xBF && charBetween (l.getD 3 0) 0x80 0xBF) ||
    (charBetween (l.getD 0 0) 0xF1 0xF3 && charBetween (l.getD 1 0) 0x80 0xBF &&
       charBetween (l.getD 2 0) 0x80 0xBF && charBetween (l.getD 3 0) 0x80 0xBF) ||
    (charBetween (l.getD 0 0) 0xF4 0xF4 && charBetween (l.getD 1 0) 0x80 0x8F &&
       charBetween (l.getD 2 0) 0x80 0xBF && charBetween (l.getD 3 0) 0x80 0xBF)
  | _ => true

/-- The walk of `_mongoc_utf8_string_length`: consume one character's bytes
per round, `none` standing for the -1 rejection.  The C loop runs until the
NUL terminator, so the model input is the list of bytes before the NUL; no
valid character contains a zero continuation byte, hence the walk can never
step over the terminator. -/
def utf8StringLengthAux : List Nat → Option Nat
  | [] => some 0
  | c :: rest =>
    if utf8IsValid (c :: rest) (utf8CharLength c) then
      match utf8StringLengthAux ((c :: rest).drop (utf8CharLength c)) with
      | some k => some (k + 1)
      | none => none
    else none
termination_by l => l.length
decreasing_by
  simp only [List.length_drop]
  have := utf8CharLength_pos c
  simp only [List.length_cons]
  omega

/-- Embeds `_mongoc_utf8_string_length` (its `int` result; -1 on rejection). -/
def utf8StringLength (s : List Nat) : Int :=
  match utf8StringLengthAux s with
  | some k => (k : Int)
  | none => -1

/-- A byte list made of complete characters that `_mongoc_utf8_is_valid`
accepts — the shape of any prefix the validator's walk has fully consumed. -/
inductive Utf8Chunks : List Nat → Prop
  | nil : Utf8Chunks []
  | cons (c rest : List Nat) (hne : c ≠ [])
      (hlen : utf8CharLength (c.headD 0) = c.length)
      (hval : utf8IsValid c c.length = true)
      (hrest : Utf8Chunks rest) : Utf8Chunks (c ++ rest)

/-- `_mongoc_utf8_is_valid` reads only the first `n` bytes. -/
theorem utf8IsValid_append (l₁ l₂ : List Nat) (n : Nat) (h : n ≤ l₁.length) :
    utf8IsValid (l₁ ++ l₂) n = utf8IsValid l₁ n := by
  rcases n with - | - | - | - | - | n
  · rfl
  · unfold utf8IsValid
    rw [List.getD_append _ _ _ _ (by omega)]
  · unfold utf8IsValid
    rw [List.getD_append _ _ _ _ (by omega), List.getD_append _ _ _ _ (by omega)]
  · unfold utf8IsValid
    rw [List.getD_append _ _ _ _ (by omega), List.getD_append _ _ _ _ (by omega),
      List.getD_append _ _ _ _ (by omega)]
  · unfold utf8IsValid
    rw [List.getD_append _ _ _ _ (by omega), List.getD_append _ _ _ _ (by omega),
      List.getD_append _ _ _ _ (by omega), List.getD_append _ _ _ _ (by omega)]
  · rfl

/-- The walk rejects `p ++ s` whenever it rejects `s` and `p` is made of
accepted characters. -/
theorem utf8StringLengthAux_append_none {p : List Nat} (hp : Utf8Chunks p) :
    ∀ s : List Nat, utf8StringLengthAux s = none →
      utf8StringLengthAux (p ++ s) = none := by
  induction hp with
  | nil => intro s hs; simpa using hs
  | cons c rest hne hlen hval hrest ih =>
    intro s hs
    obtain ⟨c0, ctail, hc⟩ : ∃ c0 ctail, c = c0 :: ctail := by
      cases c with
      | nil => exact absurd rfl hne
      | cons c0 ctail => exact ⟨c0, ctail, rfl⟩
    subst hc
    have hcons : (c0 :: ctail) ++ (rest ++ s) = c0 :: (ctail ++ (rest ++ s)) := by simp
    rw [List.append_assoc, hcons]
    unfold utf8StringLengthAux
    simp only [List.headD_cons] at hlen
    have hval2 : utf8IsValid (c0 :: (ctail ++ (rest ++ s))) (utf8CharLength c0) = true := by
      have := utf8IsValid_append (c0 :: ctail) (rest ++ s) (utf8CharLength c0) (by
        simp [hlen])
      simp only [List.cons_append] at this
      rw [this, hlen]
      exact hval
    rw [hval2]
    simp only [if_true]
    have hdrop : (c0 :: (ctail ++ (rest ++ s))).drop (utf8CharLength c0) = rest ++ s := by
      have : (c0 :: ctail) ++ (rest ++ s) = c0 :: (ctail ++ (rest ++ s)) := by simp
      rw [← this, List.drop_append_of_le_length (by simp [hlen]), hlen]
      simp
    rw [hdrop, ih s hs]

/-- C9: the UTF-8 validator rejects (a) any byte in [0x80,0xBF] in leading
position, (b) the overlong two-byte encoding `0xC0 0xAF` of `/`, and (c) a
three-byte sequence `0xED` with second byte above 0x9F (a UTF-16 surrogate):
`_mongoc_utf8_is_valid` returns false on each, and
`_mongoc_utf8_string_length` returns -1 on any input containing one of them
at a character boundary of its walk (after any run `p` of accepted
characters). -/
theorem utf8_rejects_continuation_overlong_surrogate
    (p rest : List Nat) (b b2 : Nat) (hp : Utf8Chunks p)
    (hb : 0x80 ≤ b ∧ b ≤ 0xBF) (hb2 : 0x9F < b2) :
    (utf8IsValid (b :: rest) 1 = false ∧ utf8CharLength b = 1 ∧
       utf8StringLength (p ++ b :: rest) = -1) ∧
    (utf8IsValid (0xC0 :: 0xAF :: rest) 2 = false ∧ utf8CharLength 0xC0 = 2 ∧
       utf8StringLength (p ++ 0xC0 :: 0xAF :: rest) = -1) ∧
    (utf8IsValid (0xED :: b2 :: rest) 3 = false ∧ utf8CharLength 0xED = 3 ∧
       utf8StringLength (p ++ 0xED :: b2 :: rest) = -1) := by
  obtain ⟨hb1, hb2'⟩ := hb
  have hlen1 : utf8CharLength b = 1 := by
    unfold utf8CharLength
    have h1 : b &&& 0x80 ≠ 0 := by
      interval_cases b <;> decide
    have h2 : b &&& 0xe0 ≠ 0xc0 := by
      interval_cases b <;> decide
    have h3 : b &&& 0xf0 ≠ 0xe0 := by
      interval_cases b <;> decide
    have h4 : b &&& 0xf8 ≠ 0xf0 := by
      interval_cases b <;> decide
    simp [h1, h2, h3, h4]
  have hval1 : utf8IsValid (b :: rest) 1 = false := by
    unfold utf8IsValid charBetween
    simp only [List.getD_cons_zero]
    have : ¬ b ≤ 0x7F := by omega
    simp [this]
  have hval2 : utf8IsValid (0xC0 :: 0xAF :: rest) 2 = false := by
    unfold utf8IsValid charBetween
    simp only [List.getD_cons_zero, List.getD_cons_succ]
    rfl
  have hval3 : utf8IsValid (0xED :: b2 :: rest) 3 = false := by
    unfold utf8IsValid charBetween
    simp only [List.getD_cons_zero, List.getD_cons_succ]
    have h1 : ¬ (0xE0 ≤ 0xED ∧ (0xED : Nat) ≤ 0xE0) := by omega
    have h3 : ¬ b2 ≤ 0x9F := by omega
    simp [h3]
  refine ⟨⟨hval1, hlen1, ?_⟩, ⟨hval2, by decide, ?_⟩, ⟨hval3, by decide, ?_⟩⟩
  · unfold utf8StringLength
    rw [utf8StringLengthAux_append_none hp]
    unfold utf8StringLengthAux
    rw [hlen1, hval1]
    simp
  · unfold utf8StringLength
    rw [utf8StringLengthAux_append_none hp]
    unfold utf8StringLengthAux
    rw [show utf8CharLength 0xC0 = 2 from by decide, hval2]
    simp
  · unfold utf8StringLength
    rw [utf8StringLengthAux_append_none hp]
    unfold utf8StringLengthAux
    rw [show utf8CharLength 0xED = 3 from by decide, hval3]
    simp

/-- Witness for C9: after the accepted character `A`, the inputs
`A 0x80`, `A 0xC0 0xAF` and `A 0xED 0xA0` are all rejected. -/
theorem utf8_rejects_witness :
    Utf8Chunks [65] ∧ (0x80 ≤ 0x80 ∧ (0x80 : Nat) ≤ 0xBF) ∧ (0x9F : Nat) < 0xA0 ∧
    ((utf8IsValid [0x80] 1 = false ∧ utf8CharLength 0x80 = 1 ∧
        utf8StringLength [65, 0x80] = -1) ∧
     (utf8IsValid [0xC0, 0xAF] 2 = false ∧ utf8CharLength 0xC0 = 2 ∧
        utf8StringLength [65, 0xC0, 0xAF] = -1) ∧
     (utf8IsValid [0xED, 0xA0] 3 = false ∧ utf8CharLength 0xED = 3 ∧
        utf8StringLength [65, 0xED, 0xA0] = -1)) :=
  have hchunk : Utf8Chunks [65] := by
    have h := Utf8Chunks.cons [65] [] (by decide) (by decide) (by decide) Utf8Chunks.nil
    simpa using h
  ⟨hchunk, ⟨by decide, by decide⟩, by decide,
   by
     have h := utf8_rejects_continuation_overlong_surrogate [65] [] 0x80 0xA0
       hchunk ⟨by decide, by decide⟩ (by decide)
     simpa using h⟩

/-! ## Base64 codec and integer parsing

`mcommon_b64_ntop` / `mcommon_b64_pton` live in common-b64.c and
`bson_ascii_strtoll` in libbson; neither file is part of this repository
snapshot, so they are modelled from the specification (§4.4 and §4.1 step 2
item 6). -/

/-- Modelled from the spec: the standard base64 alphabet
(`A-Z`, `a-z`, `0-9`, `+`, `/`). -/
def b64Char (n : Nat) : Nat :=
  if n < 26 then 65 + n
  else if n < 52 then 97 + (n - 26)
  else if n < 62 then 48 + (n - 52)
  else if n = 62 then 43
  else 47

/-- Modelled from the spec: `encode(bytes) -> ascii`, standard base64 with
`=` padding and no line wrapping (the successful output of
`mcommon_b64_ntop`, which is absent from this snapshot). -/
def b64Encode : List Nat → List Nat
  | b1 :: b2 :: b3 :: rest =>
    b64Char (b1 / 4) :: b64Char (b1 % 4 * 16 + b2 / 16) ::
      b64Char (b2 % 16 * 4 + b3 / 64) :: b64Char (b3 % 64) :: b64Encode rest
  | [b1, b2] =>
    [b64Char (b1 / 4), b64Char (b1 % 4 * 16 + b2 / 16), b64Char (b2 % 16 * 4), 61]
  | [b1] => [b64Char (b1 / 4), b64Char (b1 % 4 * 16), 61, 61]
  | [] => []

/-- Modelled from the spec: the value of one base64 alphabet character,
`none` for an invalid character. -/
def b64Val (c : Nat) : Option Nat :=
  if 65 ≤ c ∧ c ≤ 90 then some (c - 65)
  else if 97 ≤ c ∧ c ≤ 122 then some (c - 97 + 26)
  else if 48 ≤ c ∧ c ≤ 57 then some (c - 48 + 52)
  else if c = 43 then some 62
  else if c = 47 then some 63
  else none

/-- Modelled from the spec: `decode(ascii) -> bytes`, rejecting invalid
characters with a failure sentinel (`mcommon_b64_pton`'s -1, here `none`). -/
def b64Decode : List Nat → Option (List Nat)
  | [] => some []
  | c1 :: c2 :: c3 :: c4 :: rest => do
    let v1 ← b64Val c1
    let v2 ← b64Val c2
    if c3 = 61 ∧ c4 = 61 ∧ rest = [] then
      some [v1 * 4 + v2 / 16]
    else do
      let v3 ← b64Val c3
      if c4 = 61 ∧ rest = [] then
        some [v1 * 4 + v2 / 16, v2 % 16 * 16 + v3 / 4]
      else do
        let v4 ← b64Val c4
        let tail ← b64Decode rest
        some ((v1 * 4 + v2 / 16) :: (v2 % 16 * 16 + v3 / 4) :: (v3 % 4 * 64 + v4) :: tail)
  | _ => none

/-- ASCII decimal digit test. -/
def isDigitByte (c : Nat) : Bool := decide (48 ≤ c) && decide (c ≤ 57)

/-- Value of a digit run. -/
def digitsVal (ds : List Nat) : Nat := ds.foldl (fun a d => a * 10 + (d - 48)) 0

/-- Modelled from the spec: `bson_ascii_strtoll(str, &endptr, 10)` (libbson,
absent from this snapshot) as used at mongoc-scram.c:725 — parse an optional
sign and a base-10 digit run, returning the value and the unconsumed
remainder (the bytes from `endptr` on; nonempty iff `*endptr` is a non-NUL
trailing character). -/
def asciiStrtoll (s : List Nat) : Int × List Nat :=
  match s with
  | 45 :: rest =>
    let ds := rest.takeWhile isDigitByte
    if ds.isEmpty then (0, s)
    else (-(digitsVal ds : Int), rest.dropWhile isDigitByte)
  | 43 :: rest =>
    let ds := rest.takeWhile isDigitByte
    if ds.isEmpty then (0, s)
    else ((digitsVal ds : Int), rest.dropWhile isDigitByte)
  | _ =>
    let ds := s.takeWhile isDigitByte
    if ds.isEmpty then (0, s)
    else ((digitsVal ds : Int), s.dropWhile isDigitByte)

/-! ## Session and cache state (mongoc-scram-private.h is absent from this
snapshot; the field inventory and sizes are modelled from spec §3:
`decoded_salt[hash_size-4]`, secrets of `hash_size` bytes, a zero-filled
secret meaning "not yet computed", and the cache entry carrying the
presecret triple plus the three secrets). -/

/-- A `mongoc_scram_cache_t` value.  `hashedPassword` is a C string pointer,
so it may be NULL (`none`). -/
structure CacheEntry where
  hashedPassword : Option (List Nat)
  decodedSalt : List Nat
  iterations : Int
  clientKey : List Nat
  serverKey : List Nat
  saltedPassword : List Nat

/-- The `mongoc_scram_t` fields step 2 and step 3 read and write.  `pass` is
the password; `encodedNonce` the base64 client nonce from step 1;
`authMessage` the running AuthMessage with capacity `authMessageMax`. -/
structure ScramSession where
  pass : List Nat
  encodedNonce : List Nat
  authMessage : List Nat
  authMessageMax : Nat
  saltedPassword : List Nat
  clientKey : List Nat
  serverKey : List Nat
  hashedPassword : Option (List Nat)
  iterations : Int
  decodedSalt : List Nat
  cache : Option CacheEntry

/-- Embeds `_mongoc_scram_cache_has_presecrets` (mongoc-scram.c:103-117):
both hashed-password strings non-NULL and `strcmp`-equal, the iteration
counts `==`, and `memcmp` equal over the `decoded_salt` field, whose size is
`hash_size - 4` bytes (spec §3). -/
def scramCacheHasPresecrets (hashSize : Nat) (cache : CacheEntry)
    (scram : ScramSession) : Bool :=
  match cache.hashedPassword, scram.hashedPassword with
  | some cp, some sp =>
    cp == sp && cache.iterations == scram.iterations &&
      cache.decodedSalt.take (hashSize - 4) == scram.decodedSalt.take (hashSize - 4)
  | _, _ => false

/-- C8: the cache presecret check returns true iff the hashed passwords are
both present and equal, the iteration counts are equal, and the decoded
salts agree on their `hash_size - 4` bytes. -/
theorem scramCacheHasPresecrets_spec (hashSize : Nat) (cache : CacheEntry)
    (scram : ScramSession) :
    scramCacheHasPresecrets hashSize cache scram = true ↔
      ((∃ cp sp, cache.hashedPassword = some cp ∧ scram.hashedPassword = some sp ∧
          cp = sp) ∧
       cache.iterations = scram.iterations ∧
       cache.decodedSalt.take (hashSize - 4) = scram.decodedSalt.take (hashSize - 4)) := by
  unfold scramCacheHasPresecrets
  cases hcp : cache.hashedPassword with
  | none => simp
  | some cp =>
    cases hsp : scram.hashedPassword with
    | none => simp
    | some sp =>
      simp only [Bool.and_eq_true, beq_iff_eq]
      constructor
      · rintro ⟨⟨h1, h2⟩, h3⟩
        exact ⟨⟨cp, sp, rfl, rfl, h1⟩, h2, h3⟩
      · rintro ⟨⟨cp2, sp2, hcp2, hsp2, heq⟩, h2, h3⟩
        refine ⟨⟨?_, h2⟩, h3⟩
        injection hcp2 with hcp2
        injection hsp2 with hsp2
        rw [← hcp2, ← hsp2] at heq
        exact heq

/-! ## Step 2: server-first message parsing (`_mongoc_scram_step2`,
mongoc-scram.c:512-810) -/

theorem dropWhile_length_le (p : Nat → Bool) (l : List Nat) :
    (l.dropWhile p).length ≤ l.length := by
  induction l with
  | nil => simp [List.dropWhile]
  | cons a t ih =>
    rw [List.dropWhile_cons]
    cases hpa : p a
    · simp
    · simp only [if_pos rfl]
      exact Nat.le_trans ih (Nat.le_succ _)

/-- The attribute parse loop of step 2 (mongoc-scram.c:588-642): each round
reads a key that must be `r`/`s`/`i` (else "unknown key"), requires `=`
(else "invalid parse state"; this also covers a key at the very end of the
buffer, where the C code's `*ptr` read leaves the parseable input), takes
the value up to the next comma or the end, stores it in the key's slot
(later occurrences overwrite earlier ones), and continues after the comma
or breaks at the end. -/
def step2ParseLoop : List Nat →
    Option (List Nat) × Option (List Nat) × Option (List Nat) →
    Except String (Option (List Nat) × Option (List Nat) × Option (List Nat))
  | [], acc => .ok acc
  | k :: rest, acc =>
    if k = 114 ∨ k = 115 ∨ k = 105 then
      match rest with
      | 61 :: rest2 =>
        let v := rest2.takeWhile (fun c => !(c == 44))
        let rem := rest2.dropWhile (fun c => !(c == 44))
        let acc2 :=
          if k = 114 then (some v, acc.2.1, acc.2.2)
          else if k = 115 then (acc.1, some v, acc.2.2)
          else (acc.1, acc.2.1, some v)
        if rem.isEmpty then .ok acc2
        else step2ParseLoop rem.tail acc2
      | _ => .error "SCRAM Failure: invalid parse state in sasl step 2"
    else .error "SCRAM Failure: unknown key in sasl step 2"
termination_by l _ => l.length
decreasing_by
  have hd := dropWhile_length_le (fun c => !(c == 44)) rest2
  simp only [List.length_tail, List.length_cons]
  omega

/-- The C `(int)` cast applied to the `bson_ascii_strtoll` result at
mongoc-scram.c:725: two's-complement truncation of the wider value into
[-2^31, 2^31). -/
def toInt32 (n : Int) : Int := (n + 2147483648) % 4294967296 - 2147483648

/-- The result of one `_mongoc_scram_stepN` call: the C bool return, the
`bson_error_t` message slot (`bson_set_error` overwrites it, and the source
can leave it set even on a `true` return), the outbound buffer, and the
updated session.  On failure returns the claims never inspect `outbuf`; it
is reported empty. -/
structure StepResult where
  ok : Bool
  err : Option String
  outbuf : List Nat
  sess : ScramSession

/-- Failure result helper (`goto FAIL` after `bson_set_error`). -/
def stepFail (msg : String) (sess : ScramSession) : StepResult :=
  { ok := false, err := some msg, outbuf := [], sess := sess }

/-- `"Client Key"`. -/
def clientKeyStr : List Nat := [67, 108, 105, 101, 110, 116, 32, 75, 101, 121]

/-- `"Server Key"`. -/
def serverKeyStr : List Nat := [83, 101, 114, 118, 101, 114, 32, 75, 101, 121]

/-- Embeds `_mongoc_scram_generate_client_proof` (mongoc-scram.c:449-503):
lazily derive ClientKey (when its first byte is zero), StoredKey = H(ClientKey),
ClientSignature = HMAC(StoredKey, AuthMessage), ClientProof = ClientKey XOR
ClientSignature, base64 into the remaining outbuf space.  `mcommon_b64_ntop`
fails when that space cannot hold the encoding plus a NUL; the caller at
line 776 ignores the returned bool, so the failure only leaves `outbuf`
without the proof.  Returns (possibly-updated client key, new outbuf). -/
def generateClientProof (hmac : List Nat → List Nat → List Nat)
    (hash : List Nat → List Nat)
    (clientKey saltedPassword authMessage outbuf : List Nat)
    (outbufmax : Nat) : List Nat × List Nat :=
  let ck := if clientKey.getD 0 0 = 0 then hmac saltedPassword clientKeyStr
            else clientKey
  let storedKey := hash ck
  let clientSignature := hmac storedKey authMessage
  let clientProof := xorBytes ck clientSignature
  let encoded := b64Encode clientProof
  if outbufmax - outbuf.length < encoded.length + 1 then (ck, outbuf)
  else (ck, outbuf ++ encoded)

/-- Embeds `_mongoc_scram_step2` (mongoc-scram.c:512-810).  The
per-algorithm password preparation of lines 551-569 (MD5-hex for SHA-1,
SASLprep for SHA-256, both resting on capabilities outside this module) is
the `prep` parameter; `hmac`/`hash` are the crypto provider.  Control flow
mirrors the source: buffer the inbound message into the auth message, parse
`r`/`s`/`i`, check the nonce — the source only records the nonce error and
does **not** jump to FAIL (line 679), so the error slot is carried on while
execution continues — emit `c=biws,r=<r>`, buffer it, emit `,p=`, decode
and length-check the salt, parse the iteration count and truncate it with
the `(int)` cast of line 725 (`toInt32`) before the negative and 4096-floor
checks, store the presecrets, apply the cache or derive the salted
password, and append the client proof. -/
def scramStep2 (prep : List Nat → Except String (List Nat))
    (hmac : List Nat → List Nat → List Nat) (hash : List Nat → List Nat)
    (hashSize : Nat) (sess : ScramSession) (inbuf : List Nat)
    (outbufmax : Nat) : StepResult :=
  match prep sess.pass with
  | .error e => stepFail e sess
  | .ok hashedPassword =>
  match bufWrite inbuf sess.authMessageMax sess.authMessage with
  | none =>
    stepFail "SCRAM Failure: could not buffer auth message in sasl step2" sess
  | some auth1 =>
  match bufWrite [44] sess.authMessageMax auth1 with
  | none =>
    stepFail "SCRAM Failure: could not buffer auth message in sasl step2" sess
  | some auth2 =>
  match step2ParseLoop inbuf (none, none, none) with
  | .error e => stepFail e sess
  | .ok (valR?, valS?, valI?) =>
  match valR? with
  | none => stepFail "SCRAM Failure: no r param in sasl step 2" sess
  | some valR =>
  match valS? with
  | none => stepFail "SCRAM Failure: no s param in sasl step 2" sess
  | some valS =>
  match valI? with
  | none => stepFail "SCRAM Failure: no i param in sasl step 2" sess
  | some valI =>
  let nonceErr : Option String :=
    if valR.length < sess.encodedNonce.length ∨
       valR.take sess.encodedNonce.length ≠ sess.encodedNonce then
      some "SCRAM Failure: client nonce not repeated in sasl step 2"
    else none
  match bufWrite [99, 61, 98, 105, 119, 115, 44, 114, 61] outbufmax [] with
  | none => stepFail "SCRAM Failure: could not buffer sasl step2" sess
  | some ob1 =>
  match bufWrite valR outbufmax ob1 with
  | none => stepFail "SCRAM Failure: could not buffer sasl step2" sess
  | some ob2 =>
  match bufWrite ob2 sess.authMessageMax auth2 with
  | none =>
    stepFail "SCRAM Failure: could not buffer auth message in sasl step2" sess
  | some auth3 =>
  match bufWrite [44, 112, 61] outbufmax ob2 with
  | none => stepFail "SCRAM Failure: could not buffer sasl step2" sess
  | some ob3 =>
  match b64Decode valS with
  | none => stepFail "SCRAM Failure: unable to decode salt in sasl step2" sess
  | some decodedSalt =>
  if decodedSalt.length ≠ hashSize - 4 then
    stepFail "SCRAM Failure: invalid salt length in sasl step2" sess
  else
  match asciiStrtoll valI with
  | (iters64, rem) =>
  let iters := toInt32 iters64
  if rem ≠ [] then
    stepFail "SCRAM Failure: unable to parse iterations in sasl step2" sess
  else if iters < 0 then
    stepFail "SCRAM Failure: iterations is negative in sasl step2" sess
  else if iters < 4096 then
    stepFail "SCRAM Failure: iterations must be at least 4096" sess
  else
    let sess1 := { sess with
      hashedPassword := some hashedPassword
      iterations := iters
      decodedSalt := decodedSalt
      authMessage := auth3 }
    let sess2 :=
      match sess1.cache with
      | some cacheE =>
        if scramCacheHasPresecrets hashSize cacheE sess1 then
          { sess1 with
            clientKey := cacheE.clientKey
            serverKey := cacheE.serverKey
            saltedPassword := cacheE.saltedPassword }
        else sess1
      | none => sess1
    let sess3 :=
      if sess2.saltedPassword.getD 0 0 = 0 then
        { sess2 with
          saltedPassword := saltPassword hmac hashedPassword decodedSalt iters.toNat }
      else sess2
    let proofOut := generateClientProof hmac hash sess3.clientKey
      sess3.saltedPassword sess3.authMessage ob3 outbufmax
    { ok := true, err := nonceErr, outbuf := proofOut.2,
      sess := { sess3 with clientKey := proofOut.1 } }

/-- C6 (amended): with the server-first message parsed into `r`/`s`/`i`
values, the auth-message and outbuf writes succeeding, and the salt decoding
to the expected `hash_size - 4` bytes, step 2's handling of `i` is: the
value is parsed as a base-10 signed integer and truncated to a 32-bit
signed int by the `(int)` cast of mongoc-scram.c:725; a trailing non-digit
makes step 2 fail with the parse error, a negative *truncated* value with
the negative error, a *truncated* value below 4096 with the downgrade
error, and the exact value 4096 is accepted (step 2 returns true). -/
theorem scramStep2_iterations (prep : List Nat → Except String (List Nat))
    (hmac : List Nat → List Nat → List Nat) (hash : List Nat → List Nat)
    (hashSize : Nat) (sess : ScramSession) (inbuf : List Nat) (outbufmax : Nat)
    (hashedPassword valR valS valI decodedSalt : List Nat)
    (auth1 auth2 auth3 ob1 ob2 ob3 : List Nat)
    (hprep : prep sess.pass = .ok hashedPassword)
    (hauth1 : bufWrite inbuf sess.authMessageMax sess.authMessage = some auth1)
    (hauth2 : bufWrite [44] sess.authMessageMax auth1 = some auth2)
    (hparse : step2ParseLoop inbuf (none, none, none) =
      .ok (some valR, some valS, some valI))
    (hob1 : bufWrite [99, 61, 98, 105, 119, 115, 44, 114, 61] outbufmax [] = some ob1)
    (hob2 : bufWrite valR outbufmax ob1 = some ob2)
    (hauth3 : bufWrite ob2 sess.authMessageMax auth2 = some auth3)
    (hob3 : bufWrite [44, 112, 61] outbufmax ob2 = some ob3)
    (hsalt : b64Decode valS = some decodedSalt)
    (hsaltlen : decodedSalt.length = hashSize - 4) :
    ((asciiStrtoll valI).2 ≠ [] →
       (scramStep2 prep hmac hash hashSize sess inbuf outbufmax).ok = false ∧
       (scramStep2 prep hmac hash hashSize sess inbuf outbufmax).err =
         some "SCRAM Failure: unable to parse iterations in sasl step2") ∧
    ((asciiStrtoll valI).2 = [] → toInt32 (asciiStrtoll valI).1 < 0 →
       (scramStep2 prep hmac hash hashSize sess inbuf outbufmax).ok = false ∧
       (scramStep2 prep hmac hash hashSize sess inbuf outbufmax).err =
         some "SCRAM Failure: iterations is negative in sasl step2") ∧
    ((asciiStrtoll valI).2 = [] → 0 ≤ toInt32 (asciiStrtoll valI).1 →
       toInt32 (asciiStrtoll valI).1 < 4096 →
       (scramStep2 prep hmac hash hashSize sess inbuf outbufmax).ok = false ∧
       (scramStep2 prep hmac hash hashSize sess inbuf outbufmax).err =
         some "SCRAM Failure: iterations must be at least 4096") ∧
    (valI = [52, 48, 57, 54] →
       (scramStep2 prep hmac hash hashSize sess inbuf outbufmax).ok = true) := by
  have hred : scramStep2 prep hmac hash hashSize sess inbuf outbufmax =
      (if (asciiStrtoll valI).2 ≠ [] then
         stepFail "SCRAM Failure: unable to parse iterations in sasl step2" sess
       else if toInt32 (asciiStrtoll valI).1 < 0 then
         stepFail "SCRAM Failure: iterations is negative in sasl step2" sess
       else if toInt32 (asciiStrtoll valI).1 < 4096 then
         stepFail "SCRAM Failure: iterations must be at least 4096" sess
       else
         let sess1 := { sess with
           hashedPassword := some hashedPassword
           iterations := toInt32 (asciiStrtoll valI).1
           decodedSalt := decodedSalt
           authMessage := auth3 }
         let sess2 :=
           match sess1.cache with
           | some cacheE =>
             if scramCacheHasPresecrets hashSize cacheE sess1 then
               { sess1 with
                 clientKey := cacheE.clientKey
                 serverKey := cacheE.serverKey
                 saltedPassword := cacheE.saltedPassword }
             else sess1
           | none => sess1
         let sess3 :=
           if sess2.saltedPassword.getD 0 0 = 0 then
             { sess2 with
               saltedPassword :=
                 saltPassword hmac hashedPassword decodedSalt
                   (toInt32 (asciiStrtoll valI).1).toNat }
           else sess2
         let proofOut := generateClientProof hmac hash sess3.clientKey
           sess3.saltedPassword sess3.authMessage ob3 outbufmax
         { ok := true,
           err := if valR.length < sess.encodedNonce.length ∨
                    valR.take sess.encodedNonce.length ≠ sess.encodedNonce then
                    some "SCRAM Failure: client nonce not repeated in sasl step 2"
                  else none,
           outbuf := proofOut.2,
           sess := { sess3 with clientKey := proofOut.1 } }) := by
    unfold scramStep2
    simp only [hprep, hauth1, hauth2, hparse, hob1, hob2, hauth3, hob3, hsalt,
      hsaltlen, ne_eq, not_true_eq_false, if_false, ite_false]
  refine ⟨?_, ?_, ?_, ?_⟩
  · intro hrem
    rw [hred]
    simp [hrem, stepFail]
  · intro hrem hneg
    rw [hred]
    simp [hrem, hneg, stepFail]
  · intro hrem hpos hlt
    rw [hred]
    have hnneg : ¬ toInt32 (asciiStrtoll valI).1 < 0 := by omega
    simp [hrem, hnneg, hlt, stepFail]
  · intro hvI
    subst hvI
    rw [hred]
    have hval : asciiStrtoll [52, 48, 57, 54] = ((4096 : Int), []) := rfl
    have hcast : toInt32 (4096 : Int) = 4096 := by decide
    rw [hval]
    norm_num [hcast]

/-! ### Concrete instantiation used to exercise steps 2 and 3: an identity
password preparation, a constant crypto provider with 20-byte digests
(SHA-1 size), and a session whose cache already holds the presecrets the
server message names, so derivation is skipped. -/

/-- Identity password preparation (a stand-in provider for evaluation). -/
def prepDemo : List Nat → Except String (List Nat) := fun p => .ok p

/-- Constant HMAC provider with 20-byte digests. -/
def hmacDemo : List Nat → List Nat → List Nat := fun _ _ => List.replicate 20 1

/-- Constant hash provider with 20-byte digests. -/
def hashDemo : List Nat → List Nat := fun _ => List.replicate 20 3

/-- A cache entry holding presecrets (`hashed_password = "p"`, 16 zero salt
bytes, 4096 iterations) and nonzero secrets. -/
def cacheDemo : CacheEntry :=
  { hashedPassword := some [112], decodedSalt := List.replicate 16 0,
    iterations := 4096, clientKey := List.replicate 20 2,
    serverKey := List.replicate 20 3, saltedPassword := List.replicate 20 4 }

/-- A session after step 1: password `"p"`, client nonce `"AAAA"`, empty
auth message with capacity 1024, zeroed secrets, and `cacheDemo` attached. -/
def sessDemo : ScramSession :=
  { pass := [112], encodedNonce := [65, 65, 65, 65], authMessage := [],
    authMessageMax := 1024, saltedPassword := List.replicate 20 0,
    clientKey := List.replicate 20 0, serverKey := List.replicate 20 0,
    hashedPassword := none, iterations := 0, decodedSalt := [],
    cache := some cacheDemo }

/-- `r=BBBB,s=AAAAAAAAAAAAAAAAAAAAAA==,i=4096`: a well-formed server-first
message whose combined nonce `BBBB` does *not* begin with the client nonce
`AAAA`; the salt decodes to 16 zero bytes (20 - 4 for SHA-1). -/
def inbufNonceMismatch : List Nat :=
  [114, 61, 66, 66, 66, 66, 44, 115, 61,
   65, 65, 65, 65, 65, 65, 65, 65, 65, 65, 65,
   65, 65, 65, 65, 65, 65, 65, 65, 65, 65, 65,
   61, 61, 44, 105, 61, 52, 48, 57, 54]

/-- The same message with the combined nonce `AAAA` matching the client. -/
def inbufNonceMatch : List Nat :=
  [114, 61, 65, 65, 65, 65, 44, 115, 61,
   65, 65, 65, 65, 65, 65, 65, 65, 65, 65, 65,
   65, 65, 65, 65, 65, 65, 65, 65, 65, 65, 65,
   61, 61, 44, 105, 61, 52, 48, 57, 54]

/-- `cacheDemo` with 5000 iterations: the presecrets a server sending
`i=-4294962296` produces after the `(int)` truncation of line 725. -/
def cacheWrapDemo : CacheEntry :=
  { hashedPassword := some [112], decodedSalt := List.replicate 16 0,
    iterations := 5000, clientKey := List.replicate 20 2,
    serverKey := List.replicate 20 3, saltedPassword := List.replicate 20 4 }

/-- `sessDemo` carrying `cacheWrapDemo`. -/
def sessWrapDemo : ScramSession := { sessDemo with cache := some cacheWrapDemo }

/-- `r=AAAA,s=AAAAAAAAAAAAAAAAAAAAAA==,i=-4294962296`: nonce matching,
valid salt, and an iteration count that parses to the negative value
-4294962296 = -(2^32) + 5000. -/
def inbufWrappedIter : List Nat :=
  [114, 61, 65, 65, 65, 65, 44, 115, 61,
   65, 65, 65, 65, 65, 65, 65, 65, 65, 65, 65,
   65, 65, 65, 65, 65, 65, 65, 65, 65, 65, 65,
   61, 61, 44, 105, 61,
   45, 52, 50, 57, 52, 57, 54, 50, 50, 57, 54]

/-- C1 evidence: on a server-first message whose `r` does not begin with the
client's encoded nonce but is otherwise valid, `_mongoc_scram_step2`
*records* the "client nonce not repeated" protocol error yet still returns
**true** — the source (mongoc-scram.c:671-679) sets the error without
jumping to FAIL, so step 2 does not return false as the specification
requires. -/
theorem scramStep2_nonce_mismatch_not_fatal :
    (scramStep2 prepDemo hmacDemo hashDemo 20 sessDemo inbufNonceMismatch 1024).ok
        = true ∧
    (scramStep2 prepDemo hmacDemo hashDemo 20 sessDemo inbufNonceMismatch 1024).err
        = some "SCRAM Failure: client nonce not repeated in sasl step 2" := by
  have hparse : step2ParseLoop inbufNonceMismatch (none, none, none) =
      .ok (some [66, 66, 66, 66],
           some [65, 65, 65, 65, 65, 65, 65, 65, 65, 65, 65,
                 65, 65, 65, 65, 65, 65, 65, 65, 65, 65, 65, 61, 61],
           some [52, 48, 57, 54]) := by
    simp [inbufNonceMismatch, step2ParseLoop]
  constructor
  · show (scramStep2 prepDemo hmacDemo hashDemo 20 sessDemo inbufNonceMismatch 1024).ok = true
    unfold scramStep2
    rw [hparse]
    rfl
  · show (scramStep2 prepDemo hmacDemo hashDemo 20 sessDemo inbufNonceMismatch 1024).err =
      some "SCRAM Failure: client nonce not repeated in sasl step 2"
    unfold scramStep2
    rw [hparse]
    rfl

/-- Witness for C6 at `sessDemo` with the nonce-matching message: bad `i`
values (`40a`, `-1`, `2048`) would be rejected and the literal `i=4096` is
accepted. -/
theorem scramStep2_iterations_witness :
    prepDemo sessDemo.pass = .ok [112] ∧
    ((asciiStrtoll [52, 48, 57, 54]).2 = [] ∧
     (asciiStrtoll [52, 48, 57, 54]).1 = 4096) ∧
    (scramStep2 prepDemo hmacDemo hashDemo 20 sessDemo inbufNonceMatch 1024).ok
      = true := by
  have hparse : step2ParseLoop inbufNonceMatch (none, none, none) =
      .ok (some [65, 65, 65, 65],
           some [65, 65, 65, 65, 65, 65, 65, 65, 65, 65, 65,
                 65, 65, 65, 65, 65, 65, 65, 65, 65, 65, 65, 61, 61],
           some [52, 48, 57, 54]) := by
    simp [inbufNonceMatch, step2ParseLoop]
  refine ⟨rfl, ⟨rfl, rfl⟩, ?_⟩
  have h := scramStep2_iterations prepDemo hmacDemo hashDemo 20 sessDemo
    inbufNonceMatch 1024 [112]
    [65, 65, 65, 65]
    [65, 65, 65, 65, 65, 65, 65, 65, 65, 65, 65,
     65, 65, 65, 65, 65, 65, 65, 65, 65, 65, 65, 61, 61]
    [52, 48, 57, 54]
    (List.replicate 16 0)
    inbufNonceMatch (inbufNonceMatch ++ [44])
    ((inbufNonceMatch ++ [44]) ++ [99, 61, 98, 105, 119, 115, 44, 114, 61, 65, 65, 65, 65])
    [99, 61, 98, 105, 119, 115, 44, 114, 61]
    [99, 61, 98, 105, 119, 115, 44, 114, 61, 65, 65, 65, 65]
    [99, 61, 98, 105, 119, 115, 44, 114, 61, 65, 65, 65, 65, 44, 112, 61]
    rfl (by decide) (by decide) hparse (by decide) (by decide) (by decide)
    (by decide) (by decide) (by decide)
  exact h.2.2.2 rfl

/-- C6 counterexample: the `i` attribute `-4294962296` parses, as a base-10
signed integer, to a negative value with no trailing garbage, yet step 2
returns **true** with no error: the `(int)` cast at mongoc-scram.c:725
truncates -4294962296 = -(2^32) + 5000 to 5000, which passes both the
negative check and the 4096 floor.  This refutes the claim's "a negative
value ... causes step 2 to return false". -/
theorem scramStep2_negative_wraps_to_accepted :
    (asciiStrtoll [45, 52, 50, 57, 52, 57, 54, 50, 50, 57, 54]).1 < 0 ∧
    (asciiStrtoll [45, 52, 50, 57, 52, 57, 54, 50, 50, 57, 54]).2 = [] ∧
    toInt32 (asciiStrtoll [45, 52, 50, 57, 52, 57, 54, 50, 50, 57, 54]).1 = 5000 ∧
    (scramStep2 prepDemo hmacDemo hashDemo 20 sessWrapDemo inbufWrappedIter 1024).ok
      = true ∧
    (scramStep2 prepDemo hmacDemo hashDemo 20 sessWrapDemo inbufWrappedIter 1024).err
      = none := by
  have hparse : step2ParseLoop inbufWrappedIter (none, none, none) =
      .ok (some [65, 65, 65, 65],
           some [65, 65, 65, 65, 65, 65, 65, 65, 65, 65, 65,
                 65, 65, 65, 65, 65, 65, 65, 65, 65, 65, 65, 61, 61],
           some [45, 52, 50, 57, 52, 57, 54, 50, 50, 57, 54]) := by
    simp [inbufWrappedIter, step2ParseLoop]
  refine ⟨by decide, by decide, by decide, ?_, ?_⟩
  · show (scramStep2 prepDemo hmacDemo hashDemo 20 sessWrapDemo inbufWrappedIter 1024).ok
      = true
    unfold scramStep2
    rw [hparse]
    rfl
  · show (scramStep2 prepDemo hmacDemo hashDemo 20 sessWrapDemo inbufWrappedIter 1024).err
      = none
    unfold scramStep2
    rw [hparse]
    rfl

/-! ## Step 3: server-final message (`_mongoc_scram_step3`,
`_mongoc_scram_verify_server_signature`, mongoc-scram.c:813-977) -/

/-- The attribute parse loop of step 3 (mongoc-scram.c:884-933), identical
in structure to step 2's but with keys `e` and `v`. -/
def step3ParseLoop : List Nat → Option (List Nat) × Option (List Nat) →
    Except String (Option (List Nat) × Option (List Nat))
  | [], acc => .ok acc
  | k :: rest, acc =>
    if k = 101 ∨ k = 118 then
      match rest with
      | 61 :: rest2 =>
        let v := rest2.takeWhile (fun c => !(c == 44))
        let rem := rest2.dropWhile (fun c => !(c == 44))
        let acc2 := if k = 101 then (some v, acc.2) else (acc.1, some v)
        if rem.isEmpty then .ok acc2
        else step3ParseLoop rem.tail acc2
      | _ => .error "SCRAM Failure: invalid parse state in sasl step 3"
    else .error "SCRAM Failure: unknown key in sasl step 3"
termination_by l _ => l.length
decreasing_by
  have hd := dropWhile_length_le (fun c => !(c == 44)) rest2
  simp only [List.length_tail, List.length_cons]
  omega

/-- The lazy ServerKey of `_mongoc_scram_verify_server_signature`
(mongoc-scram.c:822-833): `HMAC(salted_password, "Server Key")` when the
stored key's first byte is zero (not yet computed), else the stored key.
The C code writes the computed key back into `scram->server_key`. -/
def computeServerKey (hmac : List Nat → List Nat → List Nat)
    (sess : ScramSession) : List Nat :=
  if sess.serverKey.getD 0 0 = 0 then hmac sess.saltedPassword serverKeyStr
  else sess.serverKey

/-- Embeds the comparison of `_mongoc_scram_verify_server_signature`
(mongoc-scram.c:835-854): ServerSignature = HMAC(ServerKey, AuthMessage),
base64-encoded (the encode buffer is sized for the largest hash per spec §3,
so `mcommon_b64_ntop` succeeds for 20- and 32-byte digests); then
`len == encoded_len && mongoc_memcmp(verification, encoded, len) == 0`,
where `mongoc_memcmp` is the constant-time compare of the first `len` bytes. -/
def verifyServerSignature (hmac : List Nat → List Nat → List Nat)
    (sess : ScramSession) (verification : List Nat) : Bool :=
  let encoded := b64Encode (hmac (computeServerKey hmac sess) sess.authMessage)
  (verification.length == encoded.length) &&
    (verification.take verification.length == encoded.take verification.length)

/-- Embeds `_mongoc_scram_step3` (mongoc-scram.c:857-977): parse `e`/`v`,
fail on a present `e` (the C message carries the server text via `%s`) or a
missing `v`, verify the server signature, and on success store the computed
server key and commit all presecrets and secrets to a fresh cache entry
(`_mongoc_scram_update_cache`, lines 202-225).  Step 3's outbound message
is empty. -/
def scramStep3 (hmac : List Nat → List Nat → List Nat)
    (sess : ScramSession) (inbuf : List Nat) : StepResult :=
  match step3ParseLoop inbuf (none, none) with
  | .error e => stepFail e sess
  | .ok (valE?, valV?) =>
  match valE? with
  | some _ => stepFail "SCRAM Failure: authentication failure in sasl step 3" sess
  | none =>
  match valV? with
  | none => stepFail "SCRAM Failure: no v param in sasl step 3" sess
  | some valV =>
    let sessK := { sess with serverKey := computeServerKey hmac sess }
    if verifyServerSignature hmac sess valV then
      { ok := true, err := none, outbuf := [],
        sess := { sessK with cache := some {
          hashedPassword := sessK.hashedPassword
          decodedSalt := sessK.decodedSalt
          iterations := sessK.iterations
          clientKey := sessK.clientKey
          serverKey := sessK.serverKey
          saltedPassword := sessK.saltedPassword } } }
    else
      stepFail "SCRAM Failure: could not verify server signature in sasl step 3" sessK

/-- The constant-time length-then-bytes comparison accepts exactly list
equality. -/
theorem verifyCompare_iff (a b : List Nat) :
    ((a.length == b.length) && (a.take a.length == b.take a.length)) = true ↔
      a = b := by
  constructor
  · intro h
    simp only [Bool.and_eq_true, beq_iff_eq, List.take_length] at h
    obtain ⟨hl, he⟩ := h
    rwa [hl, List.take_length] at he
  · rintro rfl
    simp

/-- C5: with the server-first `v` value parsed out and the server key not
yet cached, step 3 succeeds iff `v` has exactly the length of, and is
byte-for-byte equal to, the base64 encoding of
`HMAC(HMAC(salted_password, "Server Key"), auth_message)`; any difference
makes step 3 return false with the protocol error. -/
theorem scramStep3_signature_check (hmac : List Nat → List Nat → List Nat)
    (sess : ScramSession) (inbuf valV : List Nat)
    (hsk : sess.serverKey.getD 0 0 = 0)
    (hparse : step3ParseLoop inbuf (none, none) = .ok (none, some valV)) :
    ((scramStep3 hmac sess inbuf).ok = true ↔
       (valV.length =
          (b64Encode (hmac (hmac sess.saltedPassword serverKeyStr)
            sess.authMessage)).length ∧
        valV = b64Encode (hmac (hmac sess.saltedPassword serverKeyStr)
            sess.authMessage))) ∧
    (valV ≠ b64Encode (hmac (hmac sess.saltedPassword serverKeyStr)
        sess.authMessage) →
       (scramStep3 hmac sess inbuf).ok = false ∧
       (scramStep3 hmac sess inbuf).err =
         some "SCRAM Failure: could not verify server signature in sasl step 3") := by
  have hck : computeServerKey hmac sess = hmac sess.saltedPassword serverKeyStr := by
    unfold computeServerKey
    rw [hsk]
    simp
  have hred : scramStep3 hmac sess inbuf =
      (let sessK := { sess with serverKey := computeServerKey hmac sess }
       if verifyServerSignature hmac sess valV then
         { ok := true, err := none, outbuf := [],
           sess := { sessK with cache := some {
             hashedPassword := sessK.hashedPassword
             decodedSalt := sessK.decodedSalt
             iterations := sessK.iterations
             clientKey := sessK.clientKey
             serverKey := sessK.serverKey
             saltedPassword := sessK.saltedPassword } } }
       else
         stepFail "SCRAM Failure: could not verify server signature in sasl step 3"
           sessK) := by
    unfold scramStep3
    simp only [hparse]
  have hver : verifyServerSignature hmac sess valV = true ↔
      valV = b64Encode (hmac (hmac sess.saltedPassword serverKeyStr)
        sess.authMessage) := by
    unfold verifyServerSignature
    rw [hck]
    exact verifyCompare_iff _ _
  constructor
  · rw [hred]
    by_cases hv : verifyServerSignature hmac sess valV = true
    · have heq := hver.mp hv
      simp only [hv, if_true]
      simp [heq]
    · have hne : valV ≠ b64Encode (hmac (hmac sess.saltedPassword serverKeyStr)
          sess.authMessage) := fun he => hv (hver.mpr he)
      simp only [Bool.not_eq_true] at hv
      simp [hv, stepFail, hne]
  · intro hne
    have hv : verifyServerSignature hmac sess valV = false := by
      rw [← Bool.not_eq_true]
      exact fun hv => hne (hver.mp hv)
    rw [hred]
    simp [hv, stepFail]

/-- The base64 of `hmacDemo`'s constant 20-byte digest (`AQEB` repeated). -/
def sigDemo : List Nat :=
  [65, 81, 69, 66, 65, 81, 69, 66, 65, 81, 69, 66, 65, 81, 69, 66,
   65, 81, 69, 66, 65, 81, 69, 66, 65, 81, 69, 61]

/-- Witness for C5: with `sessDemo` (server key still zeroed) and the
server-final message `v=<sigDemo>`, step 3 accepts exactly the matching
signature. -/
theorem scramStep3_signature_check_witness :
    sessDemo.serverKey.getD 0 0 = 0 ∧
    step3ParseLoop ([118, 61] ++ sigDemo) (none, none) = .ok (none, some sigDemo) ∧
    (((scramStep3 hmacDemo sessDemo ([118, 61] ++ sigDemo)).ok = true ↔
        (sigDemo.length =
           (b64Encode (hmacDemo (hmacDemo sessDemo.saltedPassword serverKeyStr)
             sessDemo.authMessage)).length ∧
         sigDemo = b64Encode (hmacDemo (hmacDemo sessDemo.saltedPassword serverKeyStr)
             sessDemo.authMessage))) ∧
     (sigDemo ≠ b64Encode (hmacDemo (hmacDemo sessDemo.saltedPassword serverKeyStr)
         sessDemo.authMessage) →
        (scramStep3 hmacDemo sessDemo ([118, 61] ++ sigDemo)).ok = false ∧
        (scramStep3 hmacDemo sessDemo ([118, 61] ++ sigDemo)).err =
          some "SCRAM Failure: could not verify server signature in sasl step 3")) := by
  have hparse : step3ParseLoop ([118, 61] ++ sigDemo) (none, none) =
      .ok (none, some sigDemo) := by
    simp [sigDemo, step3ParseLoop]
  exact ⟨rfl, hparse,
    scramStep3_signature_check hmacDemo sessDemo ([118, 61] ++ sigDemo) sigDemo
      rfl hparse⟩

/-! ## Password preparation with ICU (`_mongoc_sasl_prep_impl`,
mongoc-scram.c:1031-1248, under `MONGOC_ENABLE_ICU`) -/

/-- The six RFC 3454 code-range tables the SASLprep filter consults.  Their
contents live in mongoc-scram-private.h, which is absent from this snapshot
(spec §4.5 names them), so the model is parametric in them; each table is a
list of inclusive ranges, matching the C flat array of pairs. -/
structure StringprepTables where
  nonAsciiSpace : List (Nat × Nat)
  mappedToNothing : List (Nat × Nat)
  prohibited : List (Nat × Nat)
  unassigned : List (Nat × Nat)
  lcatBidi : List (Nat × Nat)
  randalcatBidi : List (Nat × Nat)

/-- Embeds `_mongoc_is_code_in_table` (mongoc-scram.c:1364-1376), with the
source's `||` between the two bound checks (`code >= table[i] ||
code <= table[i + 1]`), reproduced as written. -/
def isCodeInTable (code : Nat) (table : List (Nat × Nat)) : Bool :=
  table.any (fun r => decide (r.1 ≤ code) || decide (code ≤ r.2))

/-- Embeds `_mongoc_utf8_to_unicode` (mongoc-scram.c:1378-1395) on unsigned
byte values (the decode loop only runs on inputs the validator accepted, for
which the C `char` sign extension in the 1-byte arm never fires). -/
def utf8ToUnicode (l : List Nat) (length : Nat) : Nat :=
  match length with
  | 1 => l.getD 0 0
  | 2 => (l.getD 0 0 &&& 0x1f) <<< 6 ||| (l.getD 1 0 &&& 0x3f)
  | 3 => (l.getD 0 0 &&& 0x0f) <<< 12 ||| ((l.getD 1 0 &&& 0x3f) <<< 6) |||
         (l.getD 2 0 &&& 0x3f)
  | 4 => (l.getD 0 0 &&& 0x07) <<< 18 ||| ((l.getD 1 0 &&& 0x3f) <<< 12) |||
         ((l.getD 2 0 &&& 0x3f) <<< 6) ||| (l.getD 3 0 &&& 0x3f)
  | _ => 0

/-- The codepoint-decoding loop of `_mongoc_sasl_prep_impl`
(mongoc-scram.c:1065-1071). -/
def utf8DecodeCodepoints : List Nat → List Nat
  | [] => []
  | c :: rest =>
    utf8ToUnicode (c :: rest) (utf8CharLength c) ::
      utf8DecodeCodepoints ((c :: rest).drop (utf8CharLength c))
termination_by l => l.length
decreasing_by
  simp only [List.length_drop]
  have := utf8CharLength_pos c
  simp only [List.length_cons]
  omega

/-- Embeds `_mongoc_sasl_prep_impl` (mongoc-scram.c:1032-1248), the ICU-mode
`_mongoc_sasl_prep`.  The source validates the UTF-8 input (its only
error-returning path), decodes it to codepoints, and runs the mapping pass
(writing 0x200 for the non-ASCII-space table, dropping
mapped-to-nothing codepoints).  Its prohibited-output check (lines
1115-1124) and bidi check (lines 1144-1169) compute conditions whose
bodies are empty comments, the NFKC normalization step is absent, and after
pre-flighting an output buffer the function ends with `return NULL`
(line 1246), discarding the mapped result — so every call yields NULL. -/
def saslPrepImpl (tables : StringprepTables) (s : List Nat) : Option (List Nat) :=
  if utf8StringLength s = -1 then none
  else
    let codepoints := utf8DecodeCodepoints s
    let mapped := codepoints.foldl (fun acc c =>
      if isCodeInTable c tables.nonAsciiSpace then acc ++ [0x200]
      else if isCodeInTable c tables.mappedToNothing then acc
      else acc ++ [c]) []
    -- The prohibit, bidi and re-encode stages of the source take no action
    -- on `mapped`; the function returns NULL unconditionally.
    none

/-- C2 evidence: under ICU, `_mongoc_sasl_prep` (which forwards to
`_mongoc_sasl_prep_impl`) returns NULL even for the valid printable-ASCII
password "a", whatever the stringprep tables hold — instead of the non-NULL
SASLprep fixed point the claim requires.  The input passes UTF-8 validation
(its length computes to 1), so no error path explains the NULL. -/
theorem saslPrepImpl_always_null (tables : StringprepTables) :
    saslPrepImpl tables [97] = none ∧ utf8StringLength [97] = 1 := by
  have h1 : utf8CharLength 97 = 1 := by decide
  have hvalid : utf8IsValid [97] 1 = true := by decide
  have haux : utf8StringLengthAux [97] = some 1 := by
    rw [utf8StringLengthAux, h1, hvalid]
    norm_num [utf8StringLengthAux]
  have hlen : utf8StringLength [97] = 1 := by
    simp [utf8StringLength, haux]
  refine ⟨?_, hlen⟩
  unfold saslPrepImpl
  rw [hlen]
  simp

end Scram
